import Mathlib

/- Verification of the annual report link aggregator / downloader
   (src/data/AnnualReport/annual_report.py) via a shallow embedding.

   The program's effects (logging, HTTP requests, filesystem changes,
   console progress output) are modelled as an explicit trace of events;
   the filesystem is the set of existing paths; the link index is an
   association list keyed by symbol, whose values are association lists
   keyed by financial-year label (mirroring Python's insertion-ordered
   dicts).  Network responses are supplied by a pure environment. -/

namespace AnnualReport

/-! ### Constants from the source -/

def REPORT_URL : String := "http://nseindia.com"

def JSON_FILE : String := "annual_report_links.json"

def encode_special_characters (symbol : String) : String :=
  symbol.replace "&" "%26"

/-! ### Python-style string helpers

`pySplit` mirrors Python's `str.split(sep)` for a single-character
separator; `pyBasename` mirrors `os.path.basename` on POSIX paths;
`pyJoin` mirrors `os.path.join` for the relative, non-empty components
built by this program; `pyInt` mirrors `int()` on an all-digit ASCII
string (anchor texts passed to it are exactly four ASCII digits). -/

def pySplit (sep : Char) : List Char → List (List Char)
  | [] => [[]]
  | c :: cs =>
    match pySplit sep cs with
    | [] => [[c]]
    | h :: t => if c = sep then [] :: h :: t else (c :: h) :: t

def pyBasename (p : String) : String :=
  String.mk ((pySplit '/' p.toList).getLastD [])

def joinSep (sep : Char) : List (List Char) → List Char
  | [] => []
  | [x] => x
  | x :: xs => x ++ sep :: joinSep sep xs

def lastN (n : Nat) (l : List α) : List α := l.drop (l.length - n)

/-- `"_".join(file_name.split("_")[-4:])`: the canonical output file name
used by both `download_to_save` and `download_reports`. -/
def canonicalName (file_name : String) : String :=
  String.mk (joinSep '_' (lastN 4 (pySplit '_' file_name.toList)))

def pyJoin (a b : String) : String := a ++ "/" ++ b

def pyInt (s : String) : Nat :=
  s.toList.foldl (fun n c => 10 * n + (c.toNat - 48)) 0

/-- `symbol.upper()`; NSE symbols are ASCII, where Python's `upper` is
the per-character ASCII uppercase map. -/
def pyUpper (s : String) : String := String.mk (s.toList.map Char.toUpper)

/-! ### The link index -/

abbrev YearMap := List (String × String)

abbrev LinkIndex := List (String × YearMap)

/-- Python dict lookup `d.get(k)` (keys are unique in a dict, so the
first binding is the binding). -/
def alGet (l : List (String × α)) (k : String) : Option α :=
  match l with
  | [] => none
  | p :: rest => if p.1 = k then some p.2 else alGet rest k

/-- Python dict assignment `d[k] = v`: overwrite in place when the key
is present, append otherwise (insertion order preserved, like a Python
dict). -/
def alSet (l : List (String × α)) (k : String) (v : α) : List (String × α) :=
  match l with
  | [] => [(k, v)]
  | p :: rest => if p.1 = k then (k, v) :: rest else p :: alSet rest k v

def insertByKey (p : String × String) : YearMap → YearMap
  | [] => [p]
  | q :: rest => if q.1 < p.1 then q :: insertByKey p rest else p :: q :: rest

/-- Sorting a year map by key: `json.dumps(..., sort_keys=True)` in
`scrape_links_for` followed by `json.loads` in `aggregate_links` yields
the scraped year map in key-sorted order. -/
def sortByKey (m : YearMap) : YearMap := m.foldr insertByKey []

/-! ### Events and log lines -/

inductive LogLevel
  | debug
  | info
  | warning
  | error
deriving DecidableEq

inductive LogMsg
  | readingSymbols
  | symbolFileNotFound (f : String)
  | readingJson
  | writingJson
  | scrapingFor (symbol : String)
  | noLinksAvailable (symbol : String)
  | wouldBeAdded (symbol : String)
  | linkAdded (symbol year link : String)
  | linkModified (symbol year link : String)
  | totalScraped (n : Nat)
  | totalAdded (n : Nat) (syms : List String)
  | totalModified (n : Nat) (syms : List String)
  | aggregationFinished
  | noLinksForSymbol (symbol : String)
  | noReportAvailable (symbol year : String)
  | renamedTo (fromName toName : String)
  | couldNotRename (p : String)
  | alreadyExists (symbol file : String)
  | downloadingMsg (symbol url : String)
  | headSize (symbol url : String) (bytes : Nat)
  | totalEstimatedSize (bytes : Nat)
  | downloadingFinished
  | couldNotDownload (url : String)
  | downloaded (url : String)
deriving DecidableEq

inductive Event
  | log (lvl : LogLevel) (msg : LogMsg)
  | writeJsonFile (links : LinkIndex)
  | httpGet (url : String)
  | httpHead (url : String)
  | mkDirs (path : String)
  | fsCreateFile (path : String)
  | fsReplace (src dst : String)
  | fsRename (src dst : String)
  | fsUtime (path : String) (lastModified : String)
  | progress (transferred total : Nat)
  | stdoutNewline
deriving DecidableEq

def isLog : Event → Option (LogLevel × LogMsg)
  | .log lvl m => some (lvl, m)
  | _ => none

/-- The log lines of a run, in order. -/
def logLines (evs : List Event) : List (LogLevel × LogMsg) :=
  evs.filterMap isLog

def isFsEvent : Event → Bool
  | .mkDirs _ => true
  | .fsCreateFile _ => true
  | .fsReplace _ _ => true
  | .fsRename _ _ => true
  | .fsUtime _ _ => true
  | _ => false

/-- The filesystem-mutating events of a run. -/
def fsEvents (evs : List Event) : List Event :=
  evs.filter isFsEvent

/-! ### Filesystem model: the set of existing paths -/

abbrev FS := List String

def pathExists (p : String) (fs : FS) : Bool := fs.contains p

def insertPath (p : String) (fs : FS) : FS :=
  if fs.contains p then fs else p :: fs

def removePath (p : String) (fs : FS) : FS := fs.erase p

/-! ### Local inputs -/

/-- `read_symbol_file`: splitlines, drop empty lines; missing file is
logged and treated as an empty list.  The file contents stand in for the
file on disk (`none` = `FileNotFoundError`). -/
def read_symbol_file (contents : Option (List String)) (path : String) :
    List String × List Event :=
  match contents with
  | some lines =>
    (lines.filter (fun l => !l.isEmpty), [Event.log .debug .readingSymbols])
  | none =>
    ([], [Event.log .debug .readingSymbols,
          Event.log .error (.symbolFileNotFound path)])

/-- `read_json`: the previously persisted mapping, or an empty mapping
when the JSON file does not exist yet. -/
def read_json (stored : Option LinkIndex) : LinkIndex × List Event :=
  (stored.getD [], [Event.log .debug .readingJson])

/-- `write_json`: serialise the full mapping, overwriting the file. -/
def write_json (links : LinkIndex) : List Event :=
  [Event.log .debug .writingJson, Event.writeJsonFile links]

/-! ### Scraping -/

/-- An anchor element of the scraped page: its visible text and its
(possibly missing) `href` attribute. -/
structure Anchor where
  text : String
  href : Option String
deriving DecidableEq

/-- `REPORT_URL + item.get("href")` raises a `TypeError` in Python when
the anchor has no `href` attribute (`get` returns `None`). -/
def typeErrorMsg : String :=
  "TypeError: can only concatenate str (not NoneType) to str"

/-- The year label derived from an anchor's visible text
(`annual_report.py` lines 251-253): exactly four ASCII digits `Y` become
`"Y-(int(Y)+1)"`, anything else is kept verbatim. -/
def yearLabel (t : String) : String :=
  if t.length = 4 ∧ t.toList.all Char.isDigit = true then
    t ++ "-" ++ Nat.repr (pyInt t + 1)
  else t

/-- The anchor loop of `scrape_links_for` (lines 250-255): builds the
year-label → url dict; raises on the first anchor without an `href`. -/
def collectLinks (acc : YearMap) : List Anchor → Except String YearMap
  | [] => .ok acc
  | a :: rest =>
    let year := yearLabel a.text
    match a.href with
    | none => .error typeErrorMsg
    | some h => collectLinks (alSet acc year (REPORT_URL ++ h)) rest

/-- `scrape_links_for`: fetch the page for a symbol (the fetcher stands
in for `get_link_page_for` plus BeautifulSoup's `find_all("a")`; a fetch
error models a network failure), warn when the page has no anchors, and
collect the `{year_label: url}` dict.  The result is key-sorted, which
models the `json.dumps(..., sort_keys=True)` / `json.loads` round trip
between this function and its caller. -/
def scrape_links_for (fetch : String → Except String (List Anchor))
    (symbol : String) : Except String YearMap × List Event :=
  let evs := [Event.log .info (.scrapingFor symbol)]
  match fetch symbol with
  | .error e => (.error e, evs)
  | .ok anchors =>
    let evs := evs ++
      (if anchors.isEmpty then [Event.log .warning (.noLinksAvailable symbol)]
       else [])
    match collectLinks [] anchors with
    | .error e => (.error e, evs)
    | .ok m => (.ok (sortByKey m), evs)

/-! ### Aggregation -/

def get_latest_financial_year (current_year : Nat) : String :=
  Nat.repr (current_year - 1) ++ "-" ++ Nat.repr current_year

structure AggStats where
  symbols_scraped : Nat
  links_added : Nat
  links_modified : Nat
  links_added_for : List String
  links_modified_for : List String
deriving DecidableEq

def AggStats.init : AggStats := ⟨0, 0, 0, [], []⟩

/-- The scrape-or-skip condition of `aggregate_links` (lines 403-404):
`force_update or not links.get(symbol) or not links[symbol].get(fy)`.
Python truthiness: a missing key or an empty dict is falsy, and a
missing year or an empty url string is falsy. -/
def shouldScrape (links : LinkIndex) (latest_fy symbol : String)
    (force_update : Bool) : Bool :=
  force_update ||
    (match alGet links symbol with
     | none => true
     | some m =>
       m.isEmpty ||
         (match alGet m latest_fy with
          | none => true
          | some u => u == ""))

/-- The body of the per-year merge loop of `aggregate_links`
(lines 412-425): classify one scraped (year, url) pair against the
index entry of `symbol` as added / modified / unchanged. -/
def mergeYear (symbol year link : String) (links : LinkIndex)
    (st : AggStats) : LinkIndex × AggStats × List Event :=
  match alGet links symbol with
  | none => (links, st, [])  -- unreachable: the symbol is inserted before merging
  | some m =>
    match alGet m year with
    | none =>
      (alSet links symbol (alSet m year link),
       ⟨st.symbols_scraped, st.links_added + 1, st.links_modified,
        st.links_added_for ++ [symbol], st.links_modified_for⟩,
       [Event.log .info (.linkAdded symbol year link)])
    | some old =>
      if old == link then (links, st, [])
      else
        (alSet links symbol (alSet m year link),
         ⟨st.symbols_scraped, st.links_added, st.links_modified + 1,
          st.links_added_for, st.links_modified_for ++ [symbol]⟩,
         [Event.log .warning (.linkModified symbol year link)])

/-- `for year in symbol_links.get(symbol): ...` -/
def mergeYears (symbol : String) :
    YearMap → LinkIndex → AggStats → LinkIndex × AggStats × List Event
  | [], links, st => (links, st, [])
  | p :: rest, links, st =>
    let one := mergeYear symbol p.1 p.2 links st
    let more := mergeYears symbol rest one.1 one.2.1
    (more.1, more.2.1, one.2.2 ++ more.2.2)

/-- The `for symbol in symbol_list[offset:]` loop of `aggregate_links`;
an exception from scraping aborts the loop and is propagated. -/
def aggLoop (fetch : String → Except String (List Anchor))
    (latest_fy : String) (force_update : Bool) :
    List String → LinkIndex → AggStats →
      Except String Unit × LinkIndex × AggStats × List Event
  | [], links, st => (.ok (), links, st, [])
  | s0 :: rest, links, st =>
    let symbol := pyUpper s0
    if shouldScrape links latest_fy symbol force_update then
      let scr := scrape_links_for fetch symbol
      match scr.1 with
      | .error e => (.error e, links, st, scr.2)
      | .ok yearmap =>
        let st1 : AggStats :=
          ⟨st.symbols_scraped + 1, st.links_added, st.links_modified,
           st.links_added_for, st.links_modified_for⟩
        -- `if symbol not in annual_report_links: ...` (lines 408-411)
        let links1 :=
          if (alGet links symbol).isNone then alSet links symbol ([] : YearMap)
          else links
        let addevs :=
          if (alGet links symbol).isNone then
            [Event.log .debug (.wouldBeAdded symbol)]
          else ([] : List Event)
        let mrg := mergeYears symbol yearmap links1 st1
        let more := aggLoop fetch latest_fy force_update rest mrg.1 mrg.2.1
        (more.1, more.2.1, more.2.2.1, scr.2 ++ addevs ++ mrg.2.2 ++ more.2.2.2)
    else aggLoop fetch latest_fy force_update rest links st

/-- `aggregate_links` (lines 368-435).  The stored JSON file and the
symbol file contents are parameters; `current_year` stands in for the
system clock.  The `try/except/finally` always writes the JSON file and
logs the summary counts; the "Aggregation finished" line is only
reached on a run without an exception. -/
def aggregate_links (fetch : String → Except String (List Anchor))
    (stored : Option LinkIndex) (symbolFileContents : Option (List String))
    (symbol_file : String) (current_year : Nat)
    (force_update : Bool) (offset : Nat) :
    Except String Unit × LinkIndex × AggStats × List Event :=
  let links0 := (read_json stored).1
  let jevs := (read_json stored).2
  let symbol_list := (read_symbol_file symbolFileContents symbol_file).1
  let sevs := (read_symbol_file symbolFileContents symbol_file).2
  let latest_fy := get_latest_financial_year current_year
  let out :=
    aggLoop fetch latest_fy force_update (symbol_list.drop offset)
      links0 AggStats.init
  let links := out.2.1
  let st := out.2.2.1
  let finevs :=
    write_json links ++
      [Event.log .info (.totalScraped st.symbols_scraped),
       Event.log .info (.totalAdded st.links_added st.links_added_for),
       Event.log .info (.totalModified st.links_modified st.links_modified_for)]
  match out.1 with
  | .ok _ =>
    (.ok (), links, st,
     jevs ++ sevs ++ out.2.2.2 ++ finevs ++ [Event.log .info .aggregationFinished])
  | .error e => (.error e, links, st, jevs ++ sevs ++ out.2.2.2 ++ finevs)

/-! ### Downloading -/

/-- A streamed GET response: whether the status was OK, the optional
`Content-Length` and `Last-Modified` headers, the sizes of the chunks
delivered by `iter_content`, and — when `streamErr` is set — an
exception raised during the streamed write after the listed chunks. -/
structure Response where
  ok : Bool
  contentLength : Option Nat
  lastModified : Option String
  chunks : List Nat
  streamErr : Option String

/-- The network / OS environment of the downloader: the GET response per
url, the `Content-Length` a HEAD request reports per url, and whether
`os.rename` raises `OSError` for a given source path. -/
structure NetEnv where
  get : String → Response
  headContentLength : String → Option Nat
  renameFails : String → Bool

/-- The per-chunk progress output of the download loop.  The formatted
console string (percentage bar or byte counter) is abstracted to the
numbers it is formatted from. -/
def progressEvents (total : Nat) (sofar : Nat) : List Nat → List Event
  | [] => []
  | c :: rest =>
    Event.progress (sofar + c) total :: progressEvents total (sofar + c) rest

/-- `download_to_save` (lines 278-332): ensure the folder exists, GET
the url; on a non-OK status log an error and return; otherwise stream
into the `.downloading` temp file.  An exception during the streamed
write leaves the temp file on disk and propagates; on success the temp
file is atomically renamed onto the canonical name and, when the server
supplied `Last-Modified`, the file's times are set from it. -/
def download_to_save (env : NetEnv) (url download_location : String)
    (fs : FS) : Except String Unit × FS × List Event :=
  let fs1 := insertPath download_location fs
  let file_name := pyBasename url
  let output_file_name := canonicalName file_name
  let output_file := pyJoin download_location output_file_name
  let download_file_name := output_file_name ++ ".downloading"
  let download_file := pyJoin download_location download_file_name
  let r := env.get url
  let evs := [Event.mkDirs download_location, Event.httpGet url]
  if r.ok = false then
    (.ok (), fs1, evs ++ [Event.log .error (.couldNotDownload url)])
  else
    let total_length := r.contentLength.getD 0
    let fs2 := insertPath download_file fs1
    let evs := evs ++ [Event.fsCreateFile download_file] ++
      progressEvents total_length 0 r.chunks
    match r.streamErr with
    | some e => (.error e, fs2, evs ++ [Event.stdoutNewline])
    | none =>
      let fs3 := insertPath output_file (removePath download_file fs2)
      let evs := evs ++ [Event.stdoutNewline,
        Event.fsReplace download_file output_file]
      match r.lastModified with
      | some lm =>
        (.ok (), fs3,
         evs ++ [Event.fsUtime output_file lm,
                 Event.log .debug (.downloaded url)])
      | none => (.ok (), fs3, evs ++ [Event.log .debug (.downloaded url)])

/-- `get_download_size`: HEAD request, log the size.  The size is kept
in bytes (the source converts to MiB for display). -/
def get_download_size (env : NetEnv) (url symbol : String) :
    Nat × List Event :=
  let total := (env.headContentLength url).getD 0
  (total, [Event.httpHead url, Event.log .info (.headSize symbol url total)])

structure DlFlags where
  simulate : Bool
  show_download_size_only : Bool
  rename_existing : Bool
  offset : Nat

/-- One iteration of the `for symbol in symbol_list[offset:]` loop of
`download_reports` (lines 479-519). -/
def dlStep (env : NetEnv) (links : LinkIndex)
    (financial_year download_location : String) (flags : DlFlags)
    (fs : FS) (total : Nat) (s0 : String) :
    Except String Unit × FS × Nat × List Event :=
  let symbol := pyUpper s0
  match alGet links symbol with
  | none =>
    (.ok (), fs, total, [Event.log .warning (.noLinksForSymbol symbol)])
  | some m =>
    if m.isEmpty then
      -- `not annual_report_links.get(symbol)`: an empty dict is falsy too
      (.ok (), fs, total, [Event.log .warning (.noLinksForSymbol symbol)])
    else
      match alGet m financial_year with
      | none =>
        (.ok (), fs, total,
         [Event.log .debug (.noReportAvailable symbol financial_year)])
      | some url =>
        if url = "" then
          -- `if url:`: an empty url string is falsy
          (.ok (), fs, total,
           [Event.log .debug (.noReportAvailable symbol financial_year)])
        else
          let file_name := pyBasename url
          let output_file := pyJoin download_location file_name
          let renamed_file_name := canonicalName file_name
          let renamed_file := pyJoin download_location renamed_file_name
          if flags.rename_existing then
            if pathExists output_file fs then
              let evs := [Event.log .info (.renamedTo file_name renamed_file_name)]
              if flags.simulate then (.ok (), fs, total, evs)
              else if env.renameFails output_file then
                (.ok (), fs, total,
                 evs ++ [Event.log .warning (.couldNotRename output_file)])
              else
                (.ok (), insertPath renamed_file (removePath output_file fs),
                 total, evs ++ [Event.fsRename output_file renamed_file])
            else (.ok (), fs, total, [])
          else
            let existing_file :=
              if pathExists renamed_file fs then renamed_file_name else file_name
            if pathExists output_file fs || pathExists renamed_file fs then
              (.ok (), fs, total,
               [Event.log .debug (.alreadyExists symbol existing_file)])
            else if flags.show_download_size_only then
              let (sz, evs) := get_download_size env url symbol
              (.ok (), fs, total + sz, evs)
            else
              let evs := [Event.log .info (.downloadingMsg symbol url)]
              if flags.simulate then (.ok (), fs, total, evs)
              else
                let dl := download_to_save env url download_location fs
                (dl.1, dl.2.1, total, evs ++ dl.2.2)

/-- The download loop: an exception from a streamed download aborts the
remaining batch; anything else continues with the next symbol. -/
def dlLoop (env : NetEnv) (links : LinkIndex)
    (financial_year download_location : String) (flags : DlFlags) :
    List String → FS → Nat → Except String Unit × FS × Nat × List Event
  | [], fs, total => (.ok (), fs, total, [])
  | s :: rest, fs, total =>
    let step := dlStep env links financial_year download_location flags fs total s
    match step.1 with
    | .error e => (.error e, step.2.1, step.2.2.1, step.2.2.2)
    | .ok _ =>
      let more := dlLoop env links financial_year download_location flags rest
        step.2.1 step.2.2.1
      (more.1, more.2.1, more.2.2.1, step.2.2.2 ++ more.2.2.2)

/-- `download_reports` (lines 438-523). -/
def download_reports (env : NetEnv) (stored : Option LinkIndex)
    (symbolFileContents : Option (List String)) (symbol_file : String)
    (financial_year base_download_folder : String) (flags : DlFlags)
    (fs : FS) : Except String Unit × FS × Nat × List Event :=
  let download_location := pyJoin base_download_folder financial_year
  let links := (read_json stored).1
  let jevs := (read_json stored).2
  let symbol_list := (read_symbol_file symbolFileContents symbol_file).1
  let sevs := (read_symbol_file symbolFileContents symbol_file).2
  let out :=
    dlLoop env links financial_year download_location flags
      (symbol_list.drop flags.offset) fs 0
  match out.1 with
  | .error e => (.error e, out.2.1, out.2.2.1, jevs ++ sevs ++ out.2.2.2)
  | .ok _ =>
    let tail :=
      (if flags.show_download_size_only then
        [Event.log .info (.totalEstimatedSize out.2.2.1)]
       else []) ++ [Event.log .info .downloadingFinished]
    (.ok (), out.2.1, out.2.2.1, jevs ++ sevs ++ out.2.2.2 ++ tail)

/-! ### Helper lemmas -/

theorem alGet_alSet_self (l : List (String × α)) (k : String) (v : α) :
    alGet (alSet l k v) k = some v := by
  induction l with
  | nil => simp [alGet, alSet]
  | cons p rest ih =>
    by_cases hp : p.1 = k
    · simp [alGet, alSet, hp]
    · simp [alGet, alSet, hp, ih]

theorem pySplit_ne_nil (sep : Char) (cs : List Char) : pySplit sep cs ≠ [] := by
  induction cs with
  | nil => simp [pySplit]
  | cons c cs ih =>
    cases hp : pySplit sep cs with
    | nil => exact absurd hp ih
    | cons h t =>
      simp only [pySplit, hp]
      split <;> simp

theorem pySplit_no_sep (sep : Char) (cs : List Char) (h : sep ∉ cs) :
    pySplit sep cs = [cs] := by
  induction cs with
  | nil => rfl
  | cons c cs ih =>
    have hcs : sep ∉ cs := fun hm => h (List.mem_cons_of_mem _ hm)
    have hc : ¬(c = sep) := fun he => h (he ▸ List.mem_cons_self c cs)
    simp [pySplit, ih hcs, hc]

theorem pySplit_append (sep : Char) (as rest : List Char) (h : sep ∉ as) :
    pySplit sep (as ++ sep :: rest) = as :: pySplit sep rest := by
  induction as with
  | nil =>
    cases hp : pySplit sep rest with
    | nil => exact absurd hp (pySplit_ne_nil sep rest)
    | cons x t => simp [pySplit, hp]
  | cons a as ih =>
    have has : sep ∉ as := fun hm => h (List.mem_cons_of_mem _ hm)
    have ha : ¬(a = sep) := fun he => h (he ▸ List.mem_cons_self a as)
    simp [pySplit, ih has, ha]

/-! ### C6: canonical output filename -/

/-- C6: the canonical output filename is the basename split on `"_"`
with the last four components rejoined; for a basename of the shape
`A_B_C_D_E` (no further underscores inside the components) this is
`B_C_D_E`. -/
theorem c6_canonical_filename (A B C D E : List Char)
    (hA : '_' ∉ A) (hB : '_' ∉ B) (hC : '_' ∉ C) (hD : '_' ∉ D)
    (hE : '_' ∉ E) :
    canonicalName ⟨A ++ '_' :: (B ++ '_' :: (C ++ '_' :: (D ++ '_' :: E)))⟩ =
      ⟨B ++ '_' :: (C ++ '_' :: (D ++ '_' :: E))⟩ := by
  have hsplit :
      pySplit '_' (A ++ '_' :: (B ++ '_' :: (C ++ '_' :: (D ++ '_' :: E))))
      = [A, B, C, D, E] := by
    rw [pySplit_append _ _ _ hA, pySplit_append _ _ _ hB,
        pySplit_append _ _ _ hC, pySplit_append _ _ _ hD,
        pySplit_no_sep _ _ hE]
  show String.mk _ = String.mk _
  rw [show String.toList ⟨A ++ '_' :: (B ++ '_' :: (C ++ '_' :: (D ++ '_' :: E)))⟩
        = A ++ '_' :: (B ++ '_' :: (C ++ '_' :: (D ++ '_' :: E))) from rfl,
      hsplit]
  rfl

/-- C6 witness: `A_B_C_D_E.pdf` becomes `B_C_D_E.pdf`. -/
theorem c6_canonical_filename_witness :
    canonicalName "A_B_C_D_E.pdf" = "B_C_D_E.pdf" :=
  c6_canonical_filename ['A'] ['B'] ['C'] ['D'] ['E', '.', 'p', 'd', 'f']
    (by decide) (by decide) (by decide) (by decide) (by decide)

/-! ### C4: year-label derivation -/

/-- C4: a four-ASCII-digit anchor text `Y` with value `n` yields the
year label `Y ++ "-" ++ repr (n + 1)`; any other anchor text is used
verbatim; and the scraped map stores that label against the anchor's
link. -/
theorem c4_year_label_rule (fetch : String → Except String (List Anchor))
    (sym t href : String) (n : Nat) (hf : fetch sym = .ok [⟨t, some href⟩]) :
    (t.length = 4 → t.toList.all Char.isDigit = true → pyInt t = n →
      yearLabel t = t ++ "-" ++ Nat.repr (n + 1))
    ∧ (¬(t.length = 4 ∧ t.toList.all Char.isDigit = true) → yearLabel t = t)
    ∧ (scrape_links_for fetch sym).1 = .ok [(yearLabel t, REPORT_URL ++ href)] := by
  refine ⟨?_, ?_, ?_⟩
  · intro h4 hd hn
    rw [yearLabel, if_pos ⟨h4, hd⟩, hn]
  · intro hnot
    rw [yearLabel, if_neg hnot]
  · simp [scrape_links_for, hf, collectLinks, alSet, sortByKey, insertByKey]

/-- C4 witness: anchor text `"2023"` yields label `"2023-2024"` and the
stored link; non-digit text is preserved verbatim. -/
theorem c4_year_label_rule_witness :
    yearLabel "2023" = "2023-2024"
    ∧ yearLabel "Annual Reports" = "Annual Reports"
    ∧ (scrape_links_for (fun _ => .ok [⟨"2023", some "/x.pdf"⟩]) "TCS").1 =
        .ok [("2023-2024", "http://nseindia.com/x.pdf")] := by
  have h := c4_year_label_rule (fun _ => .ok [⟨"2023", some "/x.pdf"⟩])
    "TCS" "2023" "/x.pdf" 2023 rfl
  have h2 := c4_year_label_rule (fun _ => .ok [⟨"Annual Reports", some "/y.pdf"⟩])
    "TCS" "Annual Reports" "/y.pdf" 0 rfl
  refine ⟨?_, h2.2.1 (by decide), ?_⟩
  · rw [h.1 (by decide) (by decide) (by decide)]
    decide
  · rw [h.2.2, h.1 (by decide) (by decide) (by decide)]
    congr 1

/-! ### C1: merge classification -/

/-- C1: merging one scraped (year, url) pair for a symbol already
present in the index: a new year is inserted and logged as added; a
year with a different stored url is overwritten and logged as modified
(not added); a year with the same url leaves index, counters and log
untouched. -/
theorem c1_merge_classification (links : LinkIndex) (st : AggStats)
    (symbol year link : String) (m : YearMap)
    (hm : alGet links symbol = some m) :
    (alGet m year = none →
      mergeYear symbol year link links st =
        (alSet links symbol (alSet m year link),
         ⟨st.symbols_scraped, st.links_added + 1, st.links_modified,
          st.links_added_for ++ [symbol], st.links_modified_for⟩,
         [Event.log .info (.linkAdded symbol year link)])
      ∧ alGet (alSet m year link) year = some link)
    ∧ (∀ old, alGet m year = some old → old ≠ link →
      mergeYear symbol year link links st =
        (alSet links symbol (alSet m year link),
         ⟨st.symbols_scraped, st.links_added, st.links_modified + 1,
          st.links_added_for, st.links_modified_for ++ [symbol]⟩,
         [Event.log .warning (.linkModified symbol year link)])
      ∧ alGet (alSet m year link) year = some link)
    ∧ (alGet m year = some link →
      mergeYear symbol year link links st = (links, st, [])) := by
  refine ⟨?_, ?_, ?_⟩
  · intro hy
    exact ⟨by simp [mergeYear, hm, hy], alGet_alSet_self m year link⟩
  · intro old hy hne
    have : ¬(old == link) = true := by simpa using hne
    refine ⟨?_, alGet_alSet_self m year link⟩
    simp [mergeYear, hm, hy, hne]
  · intro hy
    simp [mergeYear, hm, hy]

/-- C1 witness: on the index `{"TCS": {"2022-2023": "url-old"}}`, a
changed url is a modification, a fresh year is an addition, and an
identical url is a no-op. -/
theorem c1_merge_classification_witness :
    (mergeYear "TCS" "2022-2023" "url-new"
        [("TCS", [("2022-2023", "url-old")])] AggStats.init =
      ([("TCS", [("2022-2023", "url-new")])], ⟨0, 0, 1, [], ["TCS"]⟩,
       [Event.log .warning (.linkModified "TCS" "2022-2023" "url-new")]))
    ∧ (mergeYear "TCS" "2010-2011" "u"
        [("TCS", [("2022-2023", "url-old")])] AggStats.init =
      ([("TCS", [("2022-2023", "url-old"), ("2010-2011", "u")])],
       ⟨0, 1, 0, ["TCS"], []⟩,
       [Event.log .info (.linkAdded "TCS" "2010-2011" "u")]))
    ∧ (mergeYear "TCS" "2022-2023" "url-old"
        [("TCS", [("2022-2023", "url-old")])] AggStats.init =
      ([("TCS", [("2022-2023", "url-old")])], AggStats.init, [])) := by
  have h := c1_merge_classification [("TCS", [("2022-2023", "url-old")])]
    AggStats.init "TCS" "2022-2023" "url-new" [("2022-2023", "url-old")] rfl
  have h2 := c1_merge_classification [("TCS", [("2022-2023", "url-old")])]
    AggStats.init "TCS" "2010-2011" "u" [("2022-2023", "url-old")] rfl
  have h3 := c1_merge_classification [("TCS", [("2022-2023", "url-old")])]
    AggStats.init "TCS" "2022-2023" "url-old" [("2022-2023", "url-old")] rfl
  refine ⟨?_, ?_, h3.2.2 (by decide)⟩
  · exact ((h.2.1 "url-old" (by decide) (by decide)).1).trans (by decide)
  · exact ((h2.1 (by decide)).1).trans (by decide)

/-! ### C2: skip condition and idempotence -/

theorem shouldScrape_false (links : LinkIndex) (fy s : String) (m : YearMap)
    (u : String) (hm : alGet links s = some m) (hu : alGet m fy = some u)
    (hne : u ≠ "") : shouldScrape links fy s false = false := by
  have hmne : m.isEmpty = false := by
    cases m with
    | nil => simp [alGet] at hu
    | cons p rest => rfl
  simp [shouldScrape, hm, hu, hmne, hne]

theorem aggLoop_skip_all (fetch : String → Except String (List Anchor))
    (fy : String) (l : List String) (links : LinkIndex) (st : AggStats)
    (h : ∀ s ∈ l, shouldScrape links fy (pyUpper s) false = false) :
    aggLoop fetch fy false l links st = (.ok (), links, st, []) := by
  induction l with
  | nil => rfl
  | cons s rest ih =>
    have hs := h s (List.mem_cons_self s rest)
    simp [aggLoop, hs, ih (fun x hx => h x (List.mem_cons_of_mem _ hx))]

/-- C2: with `force_update = False`, a symbol whose index entry has a
(non-empty) url under the current financial-year label is not scraped;
when every processed symbol is in that state, the run succeeds with the
index unchanged, zero counts, and no scraping log line. -/
theorem c2_force_update_false_idempotent
    (fetch : String → Except String (List Anchor)) (stored : Option LinkIndex)
    (contents : Option (List String)) (file : String) (current_year : Nat)
    (offset : Nat)
    (hall : ∀ s ∈ ((read_symbol_file contents file).1.drop offset),
      ∃ m u, alGet (stored.getD []) (pyUpper s) = some m ∧
        alGet m (get_latest_financial_year current_year) = some u ∧ u ≠ "") :
    (∀ (links : LinkIndex) (s : String) (m : YearMap) (u : String),
      alGet links s = some m →
      alGet m (get_latest_financial_year current_year) = some u → u ≠ "" →
      shouldScrape links (get_latest_financial_year current_year) s false = false)
    ∧ (aggregate_links fetch stored contents file current_year false offset).1 =
        .ok ()
    ∧ (aggregate_links fetch stored contents file current_year false offset).2.1 =
        stored.getD []
    ∧ (aggregate_links fetch stored contents file current_year false offset).2.2.1 =
        AggStats.init
    ∧ ∀ s, Event.log .info (.scrapingFor s) ∉
        (aggregate_links fetch stored contents file current_year false offset).2.2.2 := by
  have hloop := aggLoop_skip_all fetch (get_latest_financial_year current_year)
    ((read_symbol_file contents file).1.drop offset) (stored.getD [])
    AggStats.init
    (fun s hs => by
      obtain ⟨m, u, hm, hu, hne⟩ := hall s hs
      exact shouldScrape_false _ _ _ _ _ hm hu hne)
  refine ⟨fun links s m u hm hu hne => shouldScrape_false _ _ _ _ _ hm hu hne,
    ?_, ?_, ?_, ?_⟩
  · simp [aggregate_links, read_json, hloop]
  · simp [aggregate_links, read_json, hloop]
  · simp [aggregate_links, read_json, hloop]
  · intro s
    cases contents with
    | none =>
      simp only [read_symbol_file] at hloop
      simp only [List.drop_nil] at hloop
      simp [aggregate_links, read_json, read_symbol_file, write_json, hloop]
    | some lines =>
      simp only [read_symbol_file] at hloop
      simp [aggregate_links, read_json, read_symbol_file, write_json, hloop]

/-- C2 witness: an index that already has the current financial year
for every symbol in the file is left untouched, with zero counts. -/
theorem c2_force_update_false_idempotent_witness :
    (aggregate_links (fun _ => .ok []) (some [("TCS", [("2023-2024", "u1")])])
        (some ["TCS"]) "f" 2024 false 0).2.1 = [("TCS", [("2023-2024", "u1")])]
    ∧ (aggregate_links (fun _ => .ok []) (some [("TCS", [("2023-2024", "u1")])])
        (some ["TCS"]) "f" 2024 false 0).2.2.1 = AggStats.init := by
  have h := c2_force_update_false_idempotent (fun _ => .ok [])
    (some [("TCS", [("2023-2024", "u1")])]) (some ["TCS"]) "f" 2024 0
    (by
      intro s hs
      have : s = "TCS" := by
        have h2 : s = "TCS" ∧ s.isEmpty = false := by
          simpa [read_symbol_file] using hs
        exact h2.1
      subst this
      exact ⟨[("2023-2024", "u1")], "u1", by decide, by decide, by decide⟩)
  exact ⟨h.2.2.1, h.2.2.2.1⟩

/-! ### C10: anchors without an href raise; warning only on empty pages -/

theorem collectLinks_error_of_none :
    ∀ (anchors : List Anchor) (acc : YearMap),
      (∃ a ∈ anchors, a.href = none) →
      collectLinks acc anchors = .error typeErrorMsg := by
  intro anchors
  induction anchors with
  | nil => intro acc hex; simp at hex
  | cons a rest ih =>
    intro acc hex
    cases ha : a.href with
    | none => simp [collectLinks, ha]
    | some v =>
      obtain ⟨b, hb, hbn⟩ := hex
      rcases List.mem_cons.mp hb with heq | hbr
      · rw [heq] at hbn
        rw [hbn] at ha
        cases ha
      · simp only [collectLinks, ha]
        exact ih _ ⟨b, hbr, hbn⟩

/-- C10: when the fetched page has an anchor without an `href`
attribute, scraping raises (a `TypeError` from concatenating `None`)
instead of skipping the anchor; the per-symbol warning is emitted
exactly when the page has no anchors at all. -/
theorem c10_missing_href_raises (fetch : String → Except String (List Anchor))
    (sym : String) (anchors : List Anchor) (hf : fetch sym = .ok anchors) :
    ((∃ a ∈ anchors, a.href = none) →
      (scrape_links_for fetch sym).1 = .error typeErrorMsg)
    ∧ (Event.log .warning (.noLinksAvailable sym) ∈
        (scrape_links_for fetch sym).2 ↔ anchors = []) := by
  constructor
  · intro hex
    simp [scrape_links_for, hf, collectLinks_error_of_none anchors [] hex]
  · cases anchors with
    | nil => simp [scrape_links_for, hf, collectLinks]
    | cons a rest =>
      cases hcoll : collectLinks [] (a :: rest) <;>
        simp [scrape_links_for, hf, hcoll]

/-- C10 witness: a page with one href-less anchor raises; a page with no
anchors warns. -/
theorem c10_missing_href_raises_witness :
    (scrape_links_for (fun _ => .ok [⟨"2023", (none : Option String)⟩]) "X").1 =
      .error typeErrorMsg
    ∧ Event.log .warning (.noLinksAvailable "Y") ∈
        (scrape_links_for (fun _ => .ok ([] : List Anchor)) "Y").2 := by
  have h := c10_missing_href_raises
    (fun _ => .ok [⟨"2023", (none : Option String)⟩]) "X"
    [⟨"2023", (none : Option String)⟩] rfl
  have h2 := c10_missing_href_raises (fun _ => .ok ([] : List Anchor)) "Y" [] rfl
  exact ⟨h.1 ⟨⟨"2023", none⟩, List.mem_singleton.mpr rfl, rfl⟩, h2.2.mpr rfl⟩

/-! ### C3: the JSON file is written and the summary logged on every
outcome of the aggregation loop -/

theorem scrape_no_write (fetch : String → Except String (List Anchor))
    (s : String) (idx : LinkIndex) :
    Event.writeJsonFile idx ∉ (scrape_links_for fetch s).2 := by
  cases hf : fetch s with
  | error e => simp [scrape_links_for, hf]
  | ok anchors =>
    cases hc : collectLinks [] anchors with
    | error e =>
      cases hae : anchors.isEmpty <;> simp [scrape_links_for, hf, hc, hae]
    | ok m =>
      cases hae : anchors.isEmpty <;> simp [scrape_links_for, hf, hc, hae]

theorem mergeYear_no_write (sym y lk : String) (links : LinkIndex)
    (st : AggStats) (idx : LinkIndex) :
    Event.writeJsonFile idx ∉ (mergeYear sym y lk links st).2.2 := by
  cases h1 : alGet links sym with
  | none => simp [mergeYear, h1]
  | some m =>
    cases h2 : alGet m y with
    | none => simp [mergeYear, h1, h2]
    | some old =>
      by_cases hcmp : old = lk <;> simp [mergeYear, h1, h2, hcmp]

theorem mergeYears_no_write (sym : String) (idx : LinkIndex) :
    ∀ (pairs : YearMap) (links : LinkIndex) (st : AggStats),
      Event.writeJsonFile idx ∉ (mergeYears sym pairs links st).2.2 := by
  intro pairs
  induction pairs with
  | nil => intro links st; simp [mergeYears]
  | cons p rest ih =>
    intro links st
    simp only [mergeYears, List.mem_append, not_or]
    exact ⟨mergeYear_no_write sym p.1 p.2 links st idx, ih _ _⟩

theorem aggLoop_no_write (fetch : String → Except String (List Anchor))
    (fy : String) (fu : Bool) (idx : LinkIndex) :
    ∀ (l : List String) (links : LinkIndex) (st : AggStats),
      Event.writeJsonFile idx ∉ (aggLoop fetch fy fu l links st).2.2.2 := by
  intro l
  induction l with
  | nil => intro links st; simp [aggLoop]
  | cons s rest ih =>
    intro links st
    by_cases hss : shouldScrape links fy (pyUpper s) fu
    · cases hscr : (scrape_links_for fetch (pyUpper s)).1 with
      | error e =>
        simp only [aggLoop, hss, if_true, hscr]
        exact scrape_no_write fetch (pyUpper s) idx
      | ok ym =>
        simp only [aggLoop, hss, if_true, hscr, List.mem_append, not_or]
        refine ⟨⟨⟨scrape_no_write fetch (pyUpper s) idx, ?_⟩,
          mergeYears_no_write (pyUpper s) idx _ _ _⟩, ih _ _⟩
        cases han : (alGet links (pyUpper s)).isNone <;> simp [han]
    · simp only [aggLoop, hss, if_false]
      exact ih links st

/-- C3: on every run — exception or not — the event trace of
`aggregate_links` ends with the JSON write of the final (possibly
partially updated) index followed by the three summary-count log lines,
the "finished" line appearing exactly on exception-free runs; and no
JSON write happens earlier. -/
theorem c3_json_written_and_summary_logged_always
    (fetch : String → Except String (List Anchor)) (stored : Option LinkIndex)
    (contents : Option (List String)) (file : String) (current_year : Nat)
    (force_update : Bool) (offset : Nat) :
    ∃ pre,
      ((aggregate_links fetch stored contents file current_year force_update
          offset).2.2.2 =
        pre ++
          [Event.log .debug .writingJson,
           Event.writeJsonFile
             (aggregate_links fetch stored contents file current_year
               force_update offset).2.1,
           Event.log .info (.totalScraped
             (aggregate_links fetch stored contents file current_year
               force_update offset).2.2.1.symbols_scraped),
           Event.log .info (.totalAdded
             (aggregate_links fetch stored contents file current_year
               force_update offset).2.2.1.links_added
             (aggregate_links fetch stored contents file current_year
               force_update offset).2.2.1.links_added_for),
           Event.log .info (.totalModified
             (aggregate_links fetch stored contents file current_year
               force_update offset).2.2.1.links_modified
             (aggregate_links fetch stored contents file current_year
               force_update offset).2.2.1.links_modified_for)] ++
          (match (aggregate_links fetch stored contents file current_year
              force_update offset).1 with
           | .ok _ => [Event.log .info .aggregationFinished]
           | .error _ => []))
      ∧ ∀ idx, Event.writeJsonFile idx ∉ pre := by
  refine ⟨(read_json stored).2 ++ (read_symbol_file contents file).2 ++
    (aggLoop fetch (get_latest_financial_year current_year) force_update
      ((read_symbol_file contents file).1.drop offset) (stored.getD [])
      AggStats.init).2.2.2, ?_, ?_⟩
  · cases hres : (aggLoop fetch (get_latest_financial_year current_year)
        force_update ((read_symbol_file contents file).1.drop offset)
        (stored.getD []) AggStats.init).1 with
    | ok u =>
      simp [aggregate_links, read_json, write_json, hres, List.append_assoc]
    | error e =>
      simp [aggregate_links, read_json, write_json, hres, List.append_assoc]
  · intro idx
    simp only [List.mem_append, not_or]
    refine ⟨⟨?_, ?_⟩, aggLoop_no_write _ _ _ _ _ _ _⟩
    · simp [read_json]
    · cases contents <;> simp [read_symbol_file]

/-! ### Filesystem and path lemmas -/

theorem pathExists_eq_mem (p : String) (fs : FS) :
    pathExists p fs = true ↔ p ∈ fs := by
  simp [pathExists]

theorem pathExists_insertPath_self (p : String) (fs : FS) :
    pathExists p (insertPath p fs) = true := by
  by_cases h : p ∈ fs <;> simp [pathExists, insertPath, h]

theorem pathExists_insertPath_ne (p q : String) (fs : FS) (h : p ≠ q) :
    pathExists p (insertPath q fs) = pathExists p fs := by
  by_cases hc : q ∈ fs <;> simp [pathExists, insertPath, hc, h]

theorem pathExists_removePath_ne (p q : String) (fs : FS) (h : p ≠ q) :
    pathExists p (removePath q fs) = pathExists p fs := by
  simp [pathExists, removePath, List.mem_erase_of_ne h]

theorem nodup_insertPath (p : String) (fs : FS) (h : fs.Nodup) :
    (insertPath p fs).Nodup := by
  by_cases hc : p ∈ fs
  · simpa [insertPath, hc] using h
  · simp [insertPath, hc, List.nodup_cons, h]

theorem pathExists_removePath_self (p : String) (fs : FS) (h : fs.Nodup) :
    pathExists p (removePath p fs) = false := by
  have : p ∉ fs.erase p := fun hm => by
    have := (List.Nodup.mem_erase_iff h).mp hm
    exact this.1 rfl
  simp [pathExists, removePath, this]

theorem pyJoin_ne_base (a b : String) : pyJoin a b ≠ a := by
  intro h
  have hlen := congrArg String.length h
  have h1 : ("/" : String).length = 1 := rfl
  simp [pyJoin, String.length_append, h1] at hlen
  omega

theorem pyJoin_ne_downloading (loc c : String) :
    pyJoin loc c ≠ pyJoin loc (c ++ ".downloading") := by
  intro h
  have hlen := congrArg String.length h
  have h12 : (".downloading" : String).length = 12 := rfl
  simp [pyJoin, String.length_append, h12] at hlen

/-! ### C7: existing files are skipped without any HTTP request -/

/-- C7: when the destination exists under either the original or the
canonical name (and `rename_existing` is off), the step only logs the
file as already present: no GET, no HEAD, no filesystem change. -/
theorem c7_existing_skipped_without_http (env : NetEnv) (links : LinkIndex)
    (fy loc : String) (flags : DlFlags) (fs : FS) (total : Nat) (s : String)
    (m : YearMap) (url : String)
    (hm : alGet links (pyUpper s) = some m) (hme : m.isEmpty = false)
    (hurl : alGet m fy = some url) (hnu : url ≠ "")
    (hren : flags.rename_existing = false)
    (hex : pathExists (pyJoin loc (pyBasename url)) fs = true ∨
      pathExists (pyJoin loc (canonicalName (pyBasename url))) fs = true) :
    dlStep env links fy loc flags fs total s =
      (.ok (), fs, total,
       [Event.log .debug (.alreadyExists (pyUpper s)
         (if pathExists (pyJoin loc (canonicalName (pyBasename url))) fs
          then canonicalName (pyBasename url) else pyBasename url))])
    ∧ (∀ u, Event.httpGet u ∉ (dlStep env links fy loc flags fs total s).2.2.2)
    ∧ (∀ u, Event.httpHead u ∉ (dlStep env links fy loc flags fs total s).2.2.2) := by
  have hcond : (pathExists (pyJoin loc (pyBasename url)) fs ||
      pathExists (pyJoin loc (canonicalName (pyBasename url))) fs) = true := by
    rcases hex with h | h <;> simp [h]
  have hstep : dlStep env links fy loc flags fs total s =
      (.ok (), fs, total,
       [Event.log .debug (.alreadyExists (pyUpper s)
         (if pathExists (pyJoin loc (canonicalName (pyBasename url))) fs
          then canonicalName (pyBasename url) else pyBasename url))]) := by
    simp [dlStep, hm, hme, hurl, hnu, hren, hcond]
  refine ⟨hstep, ?_, ?_⟩ <;> intro u <;> rw [hstep] <;>
    by_cases hpe : pathExists (pyJoin loc (canonicalName (pyBasename url))) fs <;>
      simp [hpe]

/-- C7 witness: a file already present under the canonical name is
skipped with only the "already exists" debug line. -/
theorem c7_existing_skipped_without_http_witness :
    dlStep ⟨fun _ => ⟨false, none, none, [], none⟩, fun _ => none, fun _ => false⟩
        [("TCS", [("2023-2024", "http://x/a_b_c_d_e.pdf")])] "2023-2024" "dl"
        ⟨false, false, false, 0⟩ ["dl/b_c_d_e.pdf"] 0 "TCS" =
      (.ok (), ["dl/b_c_d_e.pdf"], 0,
       [Event.log .debug (.alreadyExists "TCS" "b_c_d_e.pdf")]) := by
  have h := c7_existing_skipped_without_http
    ⟨fun _ => ⟨false, none, none, [], none⟩, fun _ => none, fun _ => false⟩
    [("TCS", [("2023-2024", "http://x/a_b_c_d_e.pdf")])] "2023-2024" "dl"
    ⟨false, false, false, 0⟩ ["dl/b_c_d_e.pdf"] 0 "TCS"
    [("2023-2024", "http://x/a_b_c_d_e.pdf")] "http://x/a_b_c_d_e.pdf"
    (by decide) (by decide) (by decide) (by decide) rfl (Or.inr (by decide))
  exact h.1.trans (by rfl)

/-! ### C9: a non-OK status is logged, no file is written, the batch
continues -/

/-- C9: when the GET for a report returns a non-OK status, the step
logs an error, creates no file (only the destination folder), returns
normally, and the loop goes on with the remaining symbols. -/
theorem c9_non_ok_skipped_batch_continues (env : NetEnv) (links : LinkIndex)
    (fy loc : String) (flags : DlFlags) (fs : FS) (total : Nat)
    (s : String) (rest : List String) (m : YearMap) (url : String)
    (hm : alGet links (pyUpper s) = some m) (hme : m.isEmpty = false)
    (hurl : alGet m fy = some url) (hnu : url ≠ "")
    (hren : flags.rename_existing = false)
    (hsz : flags.show_download_size_only = false)
    (hsim : flags.simulate = false)
    (hex1 : pathExists (pyJoin loc (pyBasename url)) fs = false)
    (hex2 : pathExists (pyJoin loc (canonicalName (pyBasename url))) fs = false)
    (hok : (env.get url).ok = false) :
    dlStep env links fy loc flags fs total s =
      (.ok (), insertPath loc fs, total,
       [Event.log .info (.downloadingMsg (pyUpper s) url),
        Event.mkDirs loc, Event.httpGet url,
        Event.log .error (.couldNotDownload url)])
    ∧ (∀ p, Event.fsCreateFile p ∉ (dlStep env links fy loc flags fs total s).2.2.2)
    ∧ dlLoop env links fy loc flags (s :: rest) fs total =
        ((dlLoop env links fy loc flags rest (insertPath loc fs) total).1,
         (dlLoop env links fy loc flags rest (insertPath loc fs) total).2.1,
         (dlLoop env links fy loc flags rest (insertPath loc fs) total).2.2.1,
         [Event.log .info (.downloadingMsg (pyUpper s) url),
          Event.mkDirs loc, Event.httpGet url,
          Event.log .error (.couldNotDownload url)] ++
           (dlLoop env links fy loc flags rest (insertPath loc fs) total).2.2.2) := by
  have hstep : dlStep env links fy loc flags fs total s =
      (.ok (), insertPath loc fs, total,
       [Event.log .info (.downloadingMsg (pyUpper s) url),
        Event.mkDirs loc, Event.httpGet url,
        Event.log .error (.couldNotDownload url)]) := by
    simp [dlStep, hm, hme, hurl, hnu, hren, hsz, hsim, hex1, hex2,
      download_to_save, hok]
  refine ⟨hstep, ?_, ?_⟩
  · intro p
    rw [hstep]
    simp
  · simp [dlLoop, hstep]

/-- C9 witness: a concrete single-symbol batch with a failing GET logs
the error and finishes the loop normally. -/
theorem c9_non_ok_skipped_batch_continues_witness :
    dlStep ⟨fun _ => ⟨false, none, none, [], none⟩, fun _ => none, fun _ => false⟩
        [("TCS", [("2023-2024", "http://x/a_b_c_d_e.pdf")])] "2023-2024" "dl"
        ⟨false, false, false, 0⟩ [] 0 "TCS" =
      (.ok (), ["dl"], 0,
       [Event.log .info (.downloadingMsg "TCS" "http://x/a_b_c_d_e.pdf"),
        Event.mkDirs "dl", Event.httpGet "http://x/a_b_c_d_e.pdf",
        Event.log .error (.couldNotDownload "http://x/a_b_c_d_e.pdf")]) := by
  have h := c9_non_ok_skipped_batch_continues
    ⟨fun _ => ⟨false, none, none, [], none⟩, fun _ => none, fun _ => false⟩
    [("TCS", [("2023-2024", "http://x/a_b_c_d_e.pdf")])] "2023-2024" "dl"
    ⟨false, false, false, 0⟩ [] 0 "TCS" []
    [("2023-2024", "http://x/a_b_c_d_e.pdf")] "http://x/a_b_c_d_e.pdf"
    (by decide) (by decide) (by decide) (by decide) rfl rfl rfl
    (by decide) (by decide) rfl
  exact h.1.trans (by rfl)

/-! ### C5: single-download lifecycle -/

theorem mem_progressEvents (total : Nat) :
    ∀ (chunks : List Nat) (sofar : Nat) (e : Event),
      e ∈ progressEvents total sofar chunks → ∃ a, e = Event.progress a total := by
  intro chunks
  induction chunks with
  | nil => intro sofar e h; simp [progressEvents] at h
  | cons c cs ih =>
    intro sofar e h
    rcases (by simpa [progressEvents] using h :
        e = Event.progress (sofar + c) total ∨
          e ∈ progressEvents total (sofar + c) cs) with he | ht
    · exact ⟨_, he⟩
    · exact ih _ _ ht

/-- C5: a download with an OK status streams into the `.downloading`
temp file; on a clean stream the temp file is renamed onto the
canonical name (timestamped exactly when `Last-Modified` was supplied)
and the temp file is gone; an exception during the streamed write
leaves the temp file on disk, performs no rename, and propagates the
exception, which aborts the remaining batch in `dlLoop`. -/
theorem c5_download_lifecycle (env : NetEnv) (url loc : String) (fs : FS)
    (hnd : fs.Nodup) (hok : (env.get url).ok = true) :
    ((env.get url).streamErr = none →
      (download_to_save env url loc fs).1 = .ok ()
      ∧ Event.fsReplace
          (pyJoin loc (canonicalName (pyBasename url) ++ ".downloading"))
          (pyJoin loc (canonicalName (pyBasename url))) ∈
          (download_to_save env url loc fs).2.2
      ∧ pathExists (pyJoin loc (canonicalName (pyBasename url)))
          (download_to_save env url loc fs).2.1 = true
      ∧ pathExists (pyJoin loc (canonicalName (pyBasename url) ++ ".downloading"))
          (download_to_save env url loc fs).2.1 = false
      ∧ (∀ lm, (env.get url).lastModified = some lm →
          Event.fsUtime (pyJoin loc (canonicalName (pyBasename url))) lm ∈
            (download_to_save env url loc fs).2.2)
      ∧ ((env.get url).lastModified = none →
          ∀ p t, Event.fsUtime p t ∉ (download_to_save env url loc fs).2.2))
    ∧ (∀ e, (env.get url).streamErr = some e →
      (download_to_save env url loc fs).1 = .error e
      ∧ pathExists (pyJoin loc (canonicalName (pyBasename url) ++ ".downloading"))
          (download_to_save env url loc fs).2.1 = true
      ∧ (∀ a b, Event.fsReplace a b ∉ (download_to_save env url loc fs).2.2)
      ∧ (∀ a b, Event.fsRename a b ∉ (download_to_save env url loc fs).2.2)
      ∧ (pathExists (pyJoin loc (canonicalName (pyBasename url))) fs = false →
          pathExists (pyJoin loc (canonicalName (pyBasename url)))
            (download_to_save env url loc fs).2.1 = false))
    ∧ (∀ (links : LinkIndex) (fy : String) (flags : DlFlags)
        (rest : List String) (s : String) (total : Nat) (e : String)
        (fs2 : FS) (t2 : Nat) (evs2 : List Event),
        dlStep env links fy loc flags fs total s = (.error e, fs2, t2, evs2) →
        dlLoop env links fy loc flags (s :: rest) fs total =
          (.error e, fs2, t2, evs2)) := by
  have hne_td : pyJoin loc (canonicalName (pyBasename url) ++ ".downloading") ≠
      pyJoin loc (canonicalName (pyBasename url)) :=
    fun h => pyJoin_ne_downloading loc (canonicalName (pyBasename url)) h.symm
  have hne_out_loc : pyJoin loc (canonicalName (pyBasename url)) ≠ loc :=
    pyJoin_ne_base loc _
  have hne_td_loc : pyJoin loc (canonicalName (pyBasename url) ++ ".downloading") ≠
      loc := pyJoin_ne_base loc _
  refine ⟨?_, ?_, ?_⟩
  · intro hse
    cases hlm : (env.get url).lastModified with
    | some lm =>
      refine ⟨by simp [download_to_save, hok, hse, hlm], ?_, ?_, ?_, ?_, ?_⟩
      · simp [download_to_save, hok, hse, hlm]
      · simp only [download_to_save, hok, hse, hlm]
        simp [pathExists_insertPath_self]
      · simp only [download_to_save, hok, hse, hlm]
        simp only [Bool.true_eq_false, if_false]
        rw [pathExists_insertPath_ne _ _ _ hne_td,
          pathExists_removePath_self]
        exact nodup_insertPath _ _ (nodup_insertPath _ _ hnd)
      · intro lm2 hlm2
        cases hlm2
        simp [download_to_save, hok, hse, hlm]
      · intro hlm2
        cases hlm2
    | none =>
      refine ⟨by simp [download_to_save, hok, hse, hlm], ?_, ?_, ?_, ?_, ?_⟩
      · simp [download_to_save, hok, hse, hlm]
      · simp only [download_to_save, hok, hse, hlm]
        simp [pathExists_insertPath_self]
      · simp only [download_to_save, hok, hse, hlm]
        simp only [Bool.true_eq_false, if_false]
        rw [pathExists_insertPath_ne _ _ _ hne_td,
          pathExists_removePath_self]
        exact nodup_insertPath _ _ (nodup_insertPath _ _ hnd)
      · intro lm2 hlm2
        cases hlm2
      · intro _ p t
        simp only [download_to_save, hok, hse, hlm]
        intro hmem
        rcases (by simpa [List.mem_append] using hmem :
            (Event.fsUtime p t = Event.mkDirs loc ∨
              Event.fsUtime p t = Event.httpGet url ∨
              Event.fsUtime p t = Event.fsCreateFile
                (pyJoin loc (canonicalName (pyBasename url) ++ ".downloading")) ∨
              Event.fsUtime p t ∈ progressEvents
                ((env.get url).contentLength.getD 0) 0 (env.get url).chunks) ∨
              Event.fsUtime p t = Event.stdoutNewline ∨
              Event.fsUtime p t = Event.fsReplace
                (pyJoin loc (canonicalName (pyBasename url) ++ ".downloading"))
                (pyJoin loc (canonicalName (pyBasename url))) ∨
              Event.fsUtime p t = Event.log .debug (.downloaded url)) with
          (h | h | h | h) | h | h | h <;>
          first
            | cases h
            | (obtain ⟨a, ha⟩ := mem_progressEvents _ _ _ _ h; cases ha)
  · intro e hse
    refine ⟨by simp [download_to_save, hok, hse], ?_, ?_, ?_, ?_⟩
    · simp only [download_to_save, hok, hse]
      simp [pathExists_insertPath_self]
    · intro a b
      simp only [download_to_save, hok, hse]
      intro hmem
      rcases (by simpa [List.mem_append] using hmem :
          (Event.fsReplace a b = Event.mkDirs loc ∨
            Event.fsReplace a b = Event.httpGet url ∨
            Event.fsReplace a b = Event.fsCreateFile
              (pyJoin loc (canonicalName (pyBasename url) ++ ".downloading")) ∨
            Event.fsReplace a b ∈ progressEvents
              ((env.get url).contentLength.getD 0) 0 (env.get url).chunks) ∨
            Event.fsReplace a b = Event.stdoutNewline) with
        (h | h | h | h) | h <;>
        first
          | cases h
          | (obtain ⟨x, hx⟩ := mem_progressEvents _ _ _ _ h; cases hx)
    · intro a b
      simp only [download_to_save, hok, hse]
      intro hmem
      rcases (by simpa [List.mem_append] using hmem :
          (Event.fsRename a b = Event.mkDirs loc ∨
            Event.fsRename a b = Event.httpGet url ∨
            Event.fsRename a b = Event.fsCreateFile
              (pyJoin loc (canonicalName (pyBasename url) ++ ".downloading")) ∨
            Event.fsRename a b ∈ progressEvents
              ((env.get url).contentLength.getD 0) 0 (env.get url).chunks) ∨
            Event.fsRename a b = Event.stdoutNewline) with
        (h | h | h | h) | h <;>
        first
          | cases h
          | (obtain ⟨x, hx⟩ := mem_progressEvents _ _ _ _ h; cases hx)
    · intro hpre
      simp only [download_to_save, hok, hse]
      simp only [Bool.true_eq_false, if_false]
      rw [pathExists_insertPath_ne _ _ _ hne_td.symm,
        pathExists_insertPath_ne _ _ _ hne_out_loc]
      exact hpre
  · intro links fy flags rest s total e fs2 t2 evs2 hstep
    simp [dlLoop, hstep]

/-- C5 witness: with a clean stream the temp file is replaced by the
canonical file and timestamped; with a mid-stream exception the temp
file stays and the error is returned. -/
theorem c5_download_lifecycle_witness :
    (download_to_save
        ⟨fun _ => ⟨true, some 100, some "Mon, 05 Feb 2024 10:00:00 GMT",
          [64, 36], none⟩, fun _ => none, fun _ => false⟩
        "http://x/a_b_c_d_e.pdf" "dl" []).1 = .ok ()
    ∧ Event.fsReplace
        (pyJoin "dl" (canonicalName (pyBasename "http://x/a_b_c_d_e.pdf") ++
          ".downloading"))
        (pyJoin "dl" (canonicalName (pyBasename "http://x/a_b_c_d_e.pdf"))) ∈
        (download_to_save
          ⟨fun _ => ⟨true, some 100, some "Mon, 05 Feb 2024 10:00:00 GMT",
            [64, 36], none⟩, fun _ => none, fun _ => false⟩
          "http://x/a_b_c_d_e.pdf" "dl" []).2.2
    ∧ pathExists
        (pyJoin "dl" (canonicalName (pyBasename "http://x/a_b_c_d_e.pdf") ++
          ".downloading"))
        (download_to_save
          ⟨fun _ => ⟨true, some 100, some "Mon, 05 Feb 2024 10:00:00 GMT",
            [64, 36], none⟩, fun _ => none, fun _ => false⟩
          "http://x/a_b_c_d_e.pdf" "dl" []).2.1 = false
    ∧ (download_to_save
        ⟨fun _ => ⟨true, some 100, none, [64], some "Disk full"⟩,
          fun _ => none, fun _ => false⟩
        "http://x/a_b_c_d_e.pdf" "dl" []).1 = .error "Disk full"
    ∧ pathExists
        (pyJoin "dl" (canonicalName (pyBasename "http://x/a_b_c_d_e.pdf") ++
          ".downloading"))
        (download_to_save
          ⟨fun _ => ⟨true, some 100, none, [64], some "Disk full"⟩,
            fun _ => none, fun _ => false⟩
          "http://x/a_b_c_d_e.pdf" "dl" []).2.1 = true := by
  have hS := c5_download_lifecycle
    ⟨fun _ => ⟨true, some 100, some "Mon, 05 Feb 2024 10:00:00 GMT",
      [64, 36], none⟩, fun _ => none, fun _ => false⟩
    "http://x/a_b_c_d_e.pdf" "dl" [] List.nodup_nil rfl
  have hF := c5_download_lifecycle
    ⟨fun _ => ⟨true, some 100, none, [64], some "Disk full"⟩,
      fun _ => none, fun _ => false⟩
    "http://x/a_b_c_d_e.pdf" "dl" [] List.nodup_nil rfl
  exact ⟨(hS.1 rfl).1, (hS.1 rfl).2.1, (hS.1 rfl).2.2.2.1,
    (hF.2.1 "Disk full" rfl).1, (hF.2.1 "Disk full" rfl).2.1⟩

/-! ### C8: simulate mode -/

/-- The destination paths one download-loop iteration may examine or
create: the original-name file, the canonical-name file, and the
canonical `.downloading` temp file. -/
def dlPaths (links : LinkIndex) (financial_year download_location : String)
    (s0 : String) : List String :=
  match alGet links (pyUpper s0) with
  | none => []
  | some m =>
    if m.isEmpty then []
    else
      match alGet m financial_year with
      | none => []
      | some url =>
        if url = "" then []
        else
          [pyJoin download_location (pyBasename url),
           pyJoin download_location (canonicalName (pyBasename url)),
           pyJoin download_location
             (canonicalName (pyBasename url) ++ ".downloading")]

/-- The log lines emitted inside `download_to_save` (and nowhere else):
the per-file non-OK error and the per-file success debug line. -/
def fromDownloadToSave : LogLevel × LogMsg → Bool
  | (_, .couldNotDownload _) => true
  | (_, .downloaded _) => true
  | _ => false

theorem fsEvents_append (a b : List Event) :
    fsEvents (a ++ b) = fsEvents a ++ fsEvents b := by
  simp [fsEvents]

theorem logLines_append (a b : List Event) :
    logLines (a ++ b) = logLines a ++ logLines b := by
  simp [logLines]

theorem logLines_progressEvents (total : Nat) :
    ∀ (chunks : List Nat) (sofar : Nat),
      logLines (progressEvents total sofar chunks) = [] := by
  intro chunks
  induction chunks with
  | nil => intro sofar; simp [progressEvents, logLines]
  | cons c cs ih => intro sofar; exact ih (sofar + c)

theorem filterMap_isLog_progressEvents (total : Nat) (chunks : List Nat)
    (sofar : Nat) :
    List.filterMap isLog (progressEvents total sofar chunks) = [] :=
  logLines_progressEvents total chunks sofar

theorem fsEvents_progressEvents (total : Nat) :
    ∀ (chunks : List Nat) (sofar : Nat),
      fsEvents (progressEvents total sofar chunks) = [] := by
  intro chunks
  induction chunks with
  | nil => intro sofar; simp [progressEvents, fsEvents]
  | cons c cs ih => intro sofar; exact ih (sofar + c)

theorem dlPaths_ne_loc (links : LinkIndex) (fy loc : String) (s p : String)
    (hp : p ∈ dlPaths links fy loc s) : p ≠ loc := by
  cases h1 : alGet links (pyUpper s) with
  | none => simp [dlPaths, h1] at hp
  | some m =>
    cases hme : m.isEmpty with
    | true => simp [dlPaths, h1, hme] at hp
    | false =>
      cases h2 : alGet m fy with
      | none => simp [dlPaths, h1, hme, h2] at hp
      | some url =>
        by_cases hu : url = ""
        · simp [dlPaths, h1, hme, h2, hu] at hp
        · simp [dlPaths, h1, hme, h2, hu] at hp
          rcases hp with rfl | rfl | rfl <;> exact pyJoin_ne_base loc _

/-- A simulated step returns normally, leaves the filesystem untouched
and emits no filesystem event. -/
theorem dlStep_simulate (env : NetEnv) (links : LinkIndex) (fy loc : String)
    (flags : DlFlags) (fs : FS) (total : Nat) (s : String)
    (hsim : flags.simulate = true) :
    (dlStep env links fy loc flags fs total s).1 = .ok ()
    ∧ (dlStep env links fy loc flags fs total s).2.1 = fs
    ∧ fsEvents (dlStep env links fy loc flags fs total s).2.2.2 = [] := by
  cases h1 : alGet links (pyUpper s) with
  | none => simp [dlStep, h1, fsEvents, isFsEvent]
  | some m =>
    cases hme : m.isEmpty with
    | true => simp [dlStep, h1, hme, fsEvents, isFsEvent]
    | false =>
      cases h2 : alGet m fy with
      | none => simp [dlStep, h1, hme, h2, fsEvents, isFsEvent]
      | some url =>
        by_cases hu : url = ""
        · simp [dlStep, h1, hme, h2, hu, fsEvents, isFsEvent]
        · cases hre : flags.rename_existing with
          | true =>
            cases hex : pathExists (pyJoin loc (pyBasename url)) fs <;>
              simp [dlStep, h1, hme, h2, hu, hre, hex, hsim, fsEvents,
                isFsEvent]
          | false =>
            cases hex : (pathExists (pyJoin loc (pyBasename url)) fs ||
                pathExists (pyJoin loc (canonicalName (pyBasename url))) fs) with
            | true =>
              simp [dlStep, h1, hme, h2, hu, hre, hex, fsEvents, isFsEvent]
            | false =>
              cases hso : flags.show_download_size_only <;>
                simp [dlStep, h1, hme, h2, hu, hre, hex, hso, hsim,
                  get_download_size, fsEvents, isFsEvent]

/-- A simulated run of the whole loop returns normally, leaves the
filesystem untouched and emits no filesystem event. -/
theorem dlLoop_simulate (env : NetEnv) (links : LinkIndex) (fy loc : String)
    (flags : DlFlags) (hsim : flags.simulate = true) :
    ∀ (l : List String) (fs : FS) (total : Nat),
      (dlLoop env links fy loc flags l fs total).1 = .ok ()
      ∧ (dlLoop env links fy loc flags l fs total).2.1 = fs
      ∧ fsEvents (dlLoop env links fy loc flags l fs total).2.2.2 = [] := by
  intro l
  induction l with
  | nil => intro fs total; simp [dlLoop, fsEvents]
  | cons s rest ih =>
    intro fs total
    have hstep := dlStep_simulate env links fy loc flags fs total s hsim
    rcases hs : dlStep env links fy loc flags fs total s with ⟨r, fs2, t2, evs⟩
    rw [hs] at hstep
    obtain ⟨hr, hfs2, hevs⟩ := hstep
    simp only at hr hfs2 hevs
    subst hr
    subst hfs2
    have hrec := ih fs2 t2
    refine ⟨?_, ?_, ?_⟩ <;>
      simp [dlLoop, hs, hevs, hrec.1, hrec.2.1, hrec.2.2, fsEvents_append]

/-- One non-simulated step against a drifted filesystem `fsR` (agreeing
with the simulated run's filesystem `fs0` on the paths this iteration
examines) returns normally, accumulates the same size total, produces
the simulated step's log lines once the per-file download messages are
filtered out, and changes the filesystem only on this iteration's own
paths (plus the download folder). -/
theorem dlStep_sim_vs_real (env : NetEnv) (links : LinkIndex) (fy loc : String)
    (sz rn : Bool) (off : Nat) (fs0 fsR : FS) (total : Nat) (s : String)
    (H1 : ∀ u, (env.get u).streamErr = none)
    (H2 : ∀ p, env.renameFails p = false)
    (hinv : ∀ p ∈ dlPaths links fy loc s, pathExists p fsR = pathExists p fs0) :
    (dlStep env links fy loc ⟨false, sz, rn, off⟩ fsR total s).1 = .ok ()
    ∧ (dlStep env links fy loc ⟨false, sz, rn, off⟩ fsR total s).2.2.1 =
        (dlStep env links fy loc ⟨true, sz, rn, off⟩ fs0 total s).2.2.1
    ∧ (logLines (dlStep env links fy loc ⟨false, sz, rn, off⟩ fsR total s).2.2.2).filter
        (fun x => !fromDownloadToSave x) =
        logLines (dlStep env links fy loc ⟨true, sz, rn, off⟩ fs0 total s).2.2.2
    ∧ ∀ p, p ∉ dlPaths links fy loc s → p ≠ loc →
        pathExists p (dlStep env links fy loc ⟨false, sz, rn, off⟩ fsR total s).2.1 =
          pathExists p fsR := by
  cases h1 : alGet links (pyUpper s) with
  | none => simp [dlStep, h1, logLines, isLog, fromDownloadToSave]
  | some m =>
    cases hme : m.isEmpty with
    | true => simp [dlStep, h1, hme, logLines, isLog, fromDownloadToSave]
    | false =>
      cases h2 : alGet m fy with
      | none => simp [dlStep, h1, hme, h2, logLines, isLog, fromDownloadToSave]
      | some url =>
        by_cases hu : url = ""
        · simp [dlStep, h1, hme, h2, hu, logLines, isLog, fromDownloadToSave]
        · have hdp : dlPaths links fy loc s =
              [pyJoin loc (pyBasename url),
               pyJoin loc (canonicalName (pyBasename url)),
               pyJoin loc (canonicalName (pyBasename url) ++ ".downloading")] := by
            simp [dlPaths, h1, hme, h2, hu]
          have hO := hinv (pyJoin loc (pyBasename url))
            (by rw [hdp]; exact List.mem_cons_self _ _)
          have hRe := hinv (pyJoin loc (canonicalName (pyBasename url)))
            (by rw [hdp]
                exact List.mem_cons_of_mem _ (List.mem_cons_self _ _))
          cases rn with
          | true =>
            cases hex : pathExists (pyJoin loc (pyBasename url)) fs0 with
            | true =>
              refine ⟨?_, ?_, ?_, ?_⟩
              · simp [dlStep, h1, hme, h2, hu, hO, hex, H2]
              · simp [dlStep, h1, hme, h2, hu, hO, hex, H2]
              · simp [dlStep, h1, hme, h2, hu, hO, hex, H2, logLines,
                  isLog, fromDownloadToSave]
              · intro p hp hl
                rw [hdp] at hp
                have hpO : p ≠ pyJoin loc (pyBasename url) := by
                  intro h; exact hp (by rw [h]; exact List.mem_cons_self _ _)
                have hpRe : p ≠ pyJoin loc (canonicalName (pyBasename url)) := by
                  intro h
                  exact hp (by
                    rw [h]
                    exact List.mem_cons_of_mem _ (List.mem_cons_self _ _))
                simp only [dlStep, h1, hme, h2, hu, hO, hex, H2]
                simp only [Bool.true_eq_false, if_false, if_true,
                  Bool.false_eq_true]
                rw [pathExists_insertPath_ne _ _ _ hpRe,
                  pathExists_removePath_ne _ _ _ hpO]
            | false =>
              simp [dlStep, h1, hme, h2, hu, hO, hex, logLines]
          | false =>
            cases hex : (pathExists (pyJoin loc (pyBasename url)) fs0 ||
                pathExists (pyJoin loc (canonicalName (pyBasename url))) fs0) with
            | true =>
              refine ⟨?_, ?_, ?_, ?_⟩
              · simp [dlStep, h1, hme, h2, hu, hO, hRe, hex]
              · simp [dlStep, h1, hme, h2, hu, hO, hRe, hex]
              · simp [dlStep, h1, hme, h2, hu, hO, hRe, hex, logLines,
                  isLog, fromDownloadToSave]
              · intro p hp hl
                simp [dlStep, h1, hme, h2, hu, hO, hRe, hex]
            | false =>
              cases sz with
              | true =>
                simp [dlStep, h1, hme, h2, hu, hO, hRe, hex,
                  get_download_size, logLines, isLog, fromDownloadToSave]
              | false =>
                have hse := H1 url
                cases hok : (env.get url).ok with
                | false =>
                  refine ⟨?_, ?_, ?_, ?_⟩
                  · simp [dlStep, h1, hme, h2, hu, hO, hRe, hex,
                      download_to_save, hok]
                  · simp [dlStep, h1, hme, h2, hu, hO, hRe, hex,
                      download_to_save, hok]
                  · simp [dlStep, h1, hme, h2, hu, hO, hRe, hex,
                      download_to_save, hok, logLines, isLog,
                      fromDownloadToSave]
                  · intro p hp hl
                    simp only [dlStep, h1, hme, h2, hu, hO, hRe, hex,
                      download_to_save, hok]
                    simp only [Bool.true_eq_false, Bool.false_eq_true,
                      if_false, if_true]
                    rw [pathExists_insertPath_ne _ _ _ hl]
                | true =>
                  cases hlm : (env.get url).lastModified with
                  | some lm =>
                    refine ⟨?_, ?_, ?_, ?_⟩
                    · simp [dlStep, h1, hme, h2, hu, hO, hRe, hex,
                        download_to_save, hok, hse, hlm]
                    · simp [dlStep, h1, hme, h2, hu, hO, hRe, hex,
                        download_to_save, hok, hse, hlm]
                    · simp [dlStep, h1, hme, h2, hu, hO, hRe, hex,
                        download_to_save, hok, hse, hlm, logLines, isLog,
                        fromDownloadToSave, List.filterMap_append,
                        List.filter_append, filterMap_isLog_progressEvents]
                    · intro p hp hl
                      rw [hdp] at hp
                      have hpRe : p ≠ pyJoin loc (canonicalName (pyBasename url)) := by
                        intro h
                        exact hp (by
                          rw [h]
                          exact List.mem_cons_of_mem _ (List.mem_cons_self _ _))
                      have hpT : p ≠ pyJoin loc
                          (canonicalName (pyBasename url) ++ ".downloading") := by
                        intro h
                        exact hp (by
                          rw [h]
                          exact List.mem_cons_of_mem _
                            (List.mem_cons_of_mem _ (List.mem_cons_self _ _)))
                      simp only [dlStep, h1, hme, h2, hu, hO, hRe, hex,
                        download_to_save, hok, hse, hlm]
                      simp only [Bool.true_eq_false, Bool.false_eq_true,
                        if_false, if_true]
                      rw [pathExists_insertPath_ne _ _ _ hpRe,
                        pathExists_removePath_ne _ _ _ hpT,
                        pathExists_insertPath_ne _ _ _ hpT,
                        pathExists_insertPath_ne _ _ _ hl]
                  | none =>
                    refine ⟨?_, ?_, ?_, ?_⟩
                    · simp [dlStep, h1, hme, h2, hu, hO, hRe, hex,
                        download_to_save, hok, hse, hlm]
                    · simp [dlStep, h1, hme, h2, hu, hO, hRe, hex,
                        download_to_save, hok, hse, hlm]
                    · simp [dlStep, h1, hme, h2, hu, hO, hRe, hex,
                        download_to_save, hok, hse, hlm, logLines, isLog,
                        fromDownloadToSave, List.filterMap_append,
                        List.filter_append, filterMap_isLog_progressEvents]
                    · intro p hp hl
                      rw [hdp] at hp
                      have hpRe : p ≠ pyJoin loc (canonicalName (pyBasename url)) := by
                        intro h
                        exact hp (by
                          rw [h]
                          exact List.mem_cons_of_mem _ (List.mem_cons_self _ _))
                      have hpT : p ≠ pyJoin loc
                          (canonicalName (pyBasename url) ++ ".downloading") := by
                        intro h
                        exact hp (by
                          rw [h]
                          exact List.mem_cons_of_mem _
                            (List.mem_cons_of_mem _ (List.mem_cons_self _ _)))
                      simp only [dlStep, h1, hme, h2, hu, hO, hRe, hex,
                        download_to_save, hok, hse, hlm]
                      simp only [Bool.true_eq_false, Bool.false_eq_true,
                        if_false, if_true]
                      rw [pathExists_insertPath_ne _ _ _ hpRe,
                        pathExists_removePath_ne _ _ _ hpT,
                        pathExists_insertPath_ne _ _ _ hpT,
                        pathExists_insertPath_ne _ _ _ hl]

/-- The whole non-simulated loop against the simulated one, given that
no two iterations touch a common destination path. -/
theorem dlLoop_sim_vs_real (env : NetEnv) (links : LinkIndex) (fy loc : String)
    (sz rn : Bool) (off : Nat) (fs0 : FS)
    (H1 : ∀ u, (env.get u).streamErr = none)
    (H2 : ∀ p, env.renameFails p = false) :
    ∀ (l : List String) (fsR : FS) (total : Nat),
      (∀ s ∈ l, ∀ p ∈ dlPaths links fy loc s,
        pathExists p fsR = pathExists p fs0) →
      l.Pairwise (fun a b => ∀ p ∈ dlPaths links fy loc a,
        p ∉ dlPaths links fy loc b) →
      (dlLoop env links fy loc ⟨false, sz, rn, off⟩ l fsR total).1 = .ok ()
      ∧ (dlLoop env links fy loc ⟨false, sz, rn, off⟩ l fsR total).2.2.1 =
          (dlLoop env links fy loc ⟨true, sz, rn, off⟩ l fs0 total).2.2.1
      ∧ (logLines (dlLoop env links fy loc ⟨false, sz, rn, off⟩ l fsR total).2.2.2).filter
          (fun x => !fromDownloadToSave x) =
          logLines (dlLoop env links fy loc ⟨true, sz, rn, off⟩ l fs0 total).2.2.2 := by
  intro l
  induction l with
  | nil => intro fsR total hinv hpw; simp [dlLoop, logLines]
  | cons s rest ih =>
    intro fsR total hinv hpw
    obtain ⟨hpwhead, hpwrest⟩ := List.pairwise_cons.mp hpw
    have hstep := dlStep_sim_vs_real env links fy loc sz rn off fs0 fsR total s
      H1 H2 (hinv s (List.mem_cons_self _ _))
    rcases hR : dlStep env links fy loc ⟨false, sz, rn, off⟩ fsR total s with
      ⟨rR, fsR2, tR2, evR⟩
    rcases hS : dlStep env links fy loc ⟨true, sz, rn, off⟩ fs0 total s with
      ⟨rS, fsS2, tS2, evS⟩
    rw [hR, hS] at hstep
    simp only at hstep
    obtain ⟨hrR, htot, hlog, hframe⟩ := hstep
    subst hrR
    subst htot
    have hsim := dlStep_simulate env links fy loc ⟨true, sz, rn, off⟩ fs0
      total s rfl
    rw [hS] at hsim
    simp only at hsim
    obtain ⟨hrS, hfsS2, _⟩ := hsim
    subst hrS
    subst hfsS2
    have hinv2 : ∀ s2 ∈ rest, ∀ p ∈ dlPaths links fy loc s2,
        pathExists p fsR2 = pathExists p fsS2 := by
      intro s2 hs2 p hp
      have hnot : p ∉ dlPaths links fy loc s := fun hmem =>
        (hpwhead s2 hs2 p hmem) hp
      have hnl : p ≠ loc := dlPaths_ne_loc links fy loc s2 p hp
      rw [hframe p hnot hnl]
      exact hinv s2 (List.mem_cons_of_mem _ hs2) p hp
    have hrec := ih fsR2 tR2 hinv2 hpwrest
    refine ⟨?_, ?_, ?_⟩
    · simp [dlLoop, hR, hS, hrec.1]
    · simp [dlLoop, hR, hS, hrec.1, hrec.2.1]
    · simp [dlLoop, hR, hS, hrec.1, logLines_append, List.filter_append,
        hlog, hrec.2.2]

/-- C8 (amended): `simulate=True` never creates, renames or deletes any
file or directory and always returns normally; and — provided no
download raises mid-stream, no rename fails, and no two processed
symbols share a destination path — it produces exactly the log lines of
the `simulate=False` run minus the per-file messages logged inside
`download_to_save`. -/
theorem c8_simulate_frame_and_logs (env : NetEnv) (stored : Option LinkIndex)
    (contents : Option (List String)) (file fy base : String)
    (sz rn : Bool) (off : Nat) (fs0 : FS)
    (H1 : ∀ u, (env.get u).streamErr = none)
    (H2 : ∀ p, env.renameFails p = false)
    (H3 : (((read_symbol_file contents file).1).drop off).Pairwise
      (fun a b => ∀ p ∈ dlPaths (stored.getD []) fy (pyJoin base fy) a,
        p ∉ dlPaths (stored.getD []) fy (pyJoin base fy) b)) :
    (download_reports env stored contents file fy base
      ⟨true, sz, rn, off⟩ fs0).2.1 = fs0
    ∧ fsEvents (download_reports env stored contents file fy base
        ⟨true, sz, rn, off⟩ fs0).2.2.2 = []
    ∧ (download_reports env stored contents file fy base
        ⟨true, sz, rn, off⟩ fs0).1 = .ok ()
    ∧ logLines (download_reports env stored contents file fy base
        ⟨true, sz, rn, off⟩ fs0).2.2.2 =
        (logLines (download_reports env stored contents file fy base
          ⟨false, sz, rn, off⟩ fs0).2.2.2).filter
          (fun x => !fromDownloadToSave x) := by
  have hsim := dlLoop_simulate env (stored.getD []) fy (pyJoin base fy)
    ⟨true, sz, rn, off⟩ rfl (((read_symbol_file contents file).1).drop off)
    fs0 0
  have hcmp := dlLoop_sim_vs_real env (stored.getD []) fy (pyJoin base fy)
    sz rn off fs0 H1 H2 (((read_symbol_file contents file).1).drop off) fs0 0
    (fun s _ p _ => rfl) H3
  rcases hLS : dlLoop env (stored.getD []) fy (pyJoin base fy)
      ⟨true, sz, rn, off⟩ (((read_symbol_file contents file).1).drop off)
      fs0 0 with ⟨rS, fsS, tS, evS⟩
  rcases hLR : dlLoop env (stored.getD []) fy (pyJoin base fy)
      ⟨false, sz, rn, off⟩ (((read_symbol_file contents file).1).drop off)
      fs0 0 with ⟨rR, fsR, tR, evR⟩
  rw [hLS] at hsim
  rw [hLR, hLS] at hcmp
  simp only at hsim hcmp
  obtain ⟨hrS, hfsS, hfseS⟩ := hsim
  obtain ⟨hrR, htot, hlog⟩ := hcmp
  subst hrS
  subst hrR
  subst hfsS
  subst htot
  have hfse_sevs : fsEvents (read_symbol_file contents file).2 = [] := by
    cases contents <;> simp [read_symbol_file, fsEvents, isFsEvent]
  have hll_sevs : (logLines (read_symbol_file contents file).2).filter
      (fun x => !fromDownloadToSave x) =
      logLines (read_symbol_file contents file).2 := by
    cases contents <;>
      simp [read_symbol_file, logLines, isLog, fromDownloadToSave]
  have hfsnil : fsEvents ([] : List Event) = [] := rfl
  have hllnil : logLines ([] : List Event) = [] := rfl
  have hjc : ∀ evs, fsEvents (Event.log LogLevel.debug LogMsg.readingJson ::
      evs) = fsEvents evs := fun _ => rfl
  have hfinc : ∀ evs, fsEvents (Event.log LogLevel.info
      LogMsg.downloadingFinished :: evs) = fsEvents evs := fun _ => rfl
  have hestc : ∀ (t : Nat) evs, fsEvents (Event.log LogLevel.info
      (LogMsg.totalEstimatedSize t) :: evs) = fsEvents evs := fun _ _ => rfl
  have hljc : ∀ evs, logLines (Event.log LogLevel.debug LogMsg.readingJson ::
      evs) = (LogLevel.debug, LogMsg.readingJson) :: logLines evs :=
    fun _ => rfl
  have hlfinc : ∀ evs, logLines (Event.log LogLevel.info
      LogMsg.downloadingFinished :: evs) =
      (LogLevel.info, LogMsg.downloadingFinished) :: logLines evs :=
    fun _ => rfl
  have hlestc : ∀ (t : Nat) evs, logLines (Event.log LogLevel.info
      (LogMsg.totalEstimatedSize t) :: evs) =
      (LogLevel.info, LogMsg.totalEstimatedSize t) :: logLines evs :=
    fun _ _ => rfl
  have hfjc : ∀ l, List.filter (fun x => !fromDownloadToSave x)
      ((LogLevel.debug, LogMsg.readingJson) :: l) =
      (LogLevel.debug, LogMsg.readingJson) ::
        List.filter (fun x => !fromDownloadToSave x) l := fun _ => rfl
  have hffinc : ∀ l, List.filter (fun x => !fromDownloadToSave x)
      ((LogLevel.info, LogMsg.downloadingFinished) :: l) =
      (LogLevel.info, LogMsg.downloadingFinished) ::
        List.filter (fun x => !fromDownloadToSave x) l := fun _ => rfl
  have hfestc : ∀ (t : Nat) l, List.filter (fun x => !fromDownloadToSave x)
      ((LogLevel.info, LogMsg.totalEstimatedSize t) :: l) =
      (LogLevel.info, LogMsg.totalEstimatedSize t) ::
        List.filter (fun x => !fromDownloadToSave x) l := fun _ _ => rfl
  have hfnil : List.filter (fun x => !fromDownloadToSave x)
      ([] : List (LogLevel × LogMsg)) = [] := rfl
  refine ⟨?_, ?_, ?_, ?_⟩
  · simp [download_reports, read_json, hLS]
  · cases sz <;>
      simp [download_reports, read_json, hLS, fsEvents_append, hfse_sevs,
        hfseS, hfsnil, hjc, hfinc, hestc]
  · simp [download_reports, read_json, hLS]
  · cases sz <;>
      simp [download_reports, read_json, hLS, hLR, logLines_append,
        List.filter_append, hllnil, hljc, hlfinc, hlestc, hfjc, hffinc,
        hfestc, hfnil, hlog, hll_sevs]

def c8Env : NetEnv :=
  ⟨fun _ => ⟨true, some 100, none, [100], none⟩, fun _ => none,
   fun _ => false⟩

def c8Links : LinkIndex := [("TCS", [("2023-2024", "http://x/a_b_c_d_e.pdf")])]

/-- C8 counterexample: the claim as stated is false — the same run with
`simulate=False` additionally logs the per-file "Downloaded" debug line
inside `download_to_save`, so the two runs do not produce the same log
lines. -/
theorem c8_simulate_counterexample :
    logLines (download_reports c8Env (some c8Links) (some ["TCS"]) "f"
      "2023-2024" "dl" ⟨true, false, false, 0⟩ []).2.2.2 ≠
    logLines (download_reports c8Env (some c8Links) (some ["TCS"]) "f"
      "2023-2024" "dl" ⟨false, false, false, 0⟩ []).2.2.2 := by
  decide

/-- C8 witness: the amended statement at a concrete run. -/
theorem c8_simulate_frame_and_logs_witness :
    (download_reports c8Env (some c8Links) (some ["TCS"]) "f" "2023-2024"
      "dl" ⟨true, false, false, 0⟩ []).2.1 = []
    ∧ logLines (download_reports c8Env (some c8Links) (some ["TCS"]) "f"
        "2023-2024" "dl" ⟨true, false, false, 0⟩ []).2.2.2 =
        (logLines (download_reports c8Env (some c8Links) (some ["TCS"]) "f"
          "2023-2024" "dl" ⟨false, false, false, 0⟩ []).2.2.2).filter
          (fun x => !fromDownloadToSave x) := by
  have h := c8_simulate_frame_and_logs c8Env (some c8Links) (some ["TCS"])
    "f" "2023-2024" "dl" false false 0 [] (fun u => rfl) (fun p => rfl)
    (by
      have hred : List.filter (fun l : String => !l.isEmpty) ["TCS"] =
          ["TCS"] := rfl
      simp [read_symbol_file, hred, List.pairwise_cons])
  exact ⟨h.1, h.2.2.2⟩

end AnnualReport
